import Mathlib

/-!
Verification of the server-manager script `manage.py` (process-lifecycle
helper for a local Node.js web server).

The script is sequential, effectful code.  We embed it shallowly: the
external world (HTTP liveness probe, OS process table, filesystem flags,
platform) is an explicit `Env`; the HTTP probe is indexed by an abstract
clock measured in seconds, which advances only at `time.sleep` calls.
Each Python function becomes a Lean function returning the list of
observable effects it performs together with the clock value when it
returns.  Terminal banner/colour output is not modelled (out of scope per
the specification); the operator-visible reports named by the
specification are modelled as dedicated effect constructors.
-/

/-- Outcome of one HTTP GET: a response with a status code and a body, or
any network error (connection refused, timeout, ...). -/
inductive HttpResult where
  | success (status : Nat) (body : String)
  | netError
  deriving DecidableEq

/-- One entry of the OS process table as seen by `psutil.process_iter`
with the `pid`, `name`, `cmdline` attributes.  `name`/`cmdline` are
`none` when unavailable (psutil yields `None` for denied attributes);
`vanished` models a process that raises `NoSuchProcess`/`AccessDenied`
when inspected during the scan. -/
structure ProcEntry where
  pid : Nat
  name : Option String
  cmdline : Option (List String)
  vanished : Bool
  deriving DecidableEq

/-- The external world the script interacts with.  `http url timeout t`
is the outcome of an HTTP GET issued at clock value `t`; `termOk p`
tells whether sending the termination signal to pid `p` succeeds. -/
structure Env where
  http : String → Nat → Nat → HttpResult
  procs : List ProcEntry
  nodeInstalled : Bool
  hasNodeModules : Bool
  npmInstallOk : Bool
  envFile : Option String
  termOk : Nat → Bool
  platformWin : Bool

/-- Observable effects of the script, in program order. -/
inductive Effect where
  | httpGet (url : String) (timeoutSecs : Nat) (time : Nat) (ok : Bool)
  | checkNode (ok : Bool)
  | npmInstall (ok : Bool)
  | readFile (path : String)
  | writeFile (path : String) (content : String)
  | spawn (windows : Bool)
  | termSignal (pid : Nat) (ok : Bool)
  | procScan (pids : List Nat)
  | sleep (secs : Nat)
  | noticeAlreadyRunning
  | reportNodeMissing
  | reportStartSuccess (envOk : Bool)
  | reportStartFailure
  | reportNothingToStop
  | reportStopSuccess
  | reportStopWarning
  | reportRunning
  | reportPids (pids : List Nat)
  | reportNotRunning
  | reportUnknown (cmd : String)
  | showHelp
  | raiseInstallError
  deriving DecidableEq

/-- Python's `needle in hay` substring test, on character lists. -/
def containsSubAux (needle : List Char) : List Char → Bool
  | [] => needle.isPrefixOf []
  | c :: rest => needle.isPrefixOf (c :: rest) || containsSubAux needle rest

/-- Python's `needle in hay` substring test, on strings. -/
def strContains (needle hay : String) : Bool :=
  containsSubAux needle.data hay.data

/-- Python's `str.lower()`. -/
def lowerString (s : String) : String :=
  ⟨s.data.map Char.toLower⟩

/-- Python's non-overlapping `hay.count(needle)`, on character lists:
after a match the scan resumes past the matched occurrence. -/
def countSubAux (needle : List Char) : List Char → Nat
  | [] => 0
  | c :: rest =>
    if needle.isPrefixOf (c :: rest) then
      1 + countSubAux needle (rest.drop (needle.length - 1))
    else
      countSubAux needle rest
termination_by l => l.length
decreasing_by
  · simp only [List.length_drop, List.length_cons]
    omega
  · simp only [List.length_cons]
    omega

/-- Python's non-overlapping `hay.count(needle)`, on strings. -/
def countSub (needle hay : String) : Nat :=
  countSubAux needle.data hay.data

/-- The fixed liveness-probe endpoint of `is_server_running`. -/
def serverUrl : String := "http://localhost:3000/api/load-files"

/-- `is_server_running`: HTTP GET to `serverUrl` with a 2-second timeout;
`true` exactly on status 200; any exception yields `false`. -/
def is_server_running (env : Env) (t : Nat) : Bool :=
  match env.http serverUrl 2 t with
  | .success status _ => status == 200
  | .netError => false

/-- The probe effect recorded at each call of `is_server_running`. -/
def probeEff (env : Env) (t : Nat) : Effect :=
  .httpGet serverUrl 2 t (is_server_running env t)

/-- The per-entry test of `find_node_processes`: the name is present and
contains "node" case-insensitively, and some command-line word contains
"server.js".  (Python's truthiness tests on `name`/`cmdline` coincide
with these matches: an empty name cannot contain "node" and `any` over
an empty command line is false.) -/
def matchesEntry (e : ProcEntry) : Bool :=
  (match e.name with
   | some n => strContains "node" (lowerString n)
   | none => false) &&
  (match e.cmdline with
   | some cl => cl.any (fun c => strContains "server.js" c)
   | none => false)

/-- `find_node_processes`: scan the process table, silently skipping
entries that raise `NoSuchProcess`/`AccessDenied`, and collect the pids
of entries passing `matchesEntry`. -/
def find_node_processes (table : List ProcEntry) : List Nat :=
  (table.filter (fun e => !e.vanished && matchesEntry e)).map (·.pid)

/-- `check_node_installed`: reports and returns whether `node --version`
succeeds. -/
def check_node_installed (env : Env) : List Effect × Bool :=
  ([.checkNode env.nodeInstalled], env.nodeInstalled)

/-- `check_dependencies`: runs `npm install` when `node_modules` is
absent; the returned flag is false when the install raises
(`check=True`). -/
def check_dependencies (env : Env) : List Effect × Bool :=
  if env.hasNodeModules then ([], true)
  else ([.npmInstall env.npmInstallOk], env.npmInstallOk)

/-- The fixed `.env` template written by `check_env_file`. -/
def templateContent : String :=
  "# Get your API keys from:\n# Anthropic: https://console.anthropic.com/account/keys\n# Perplexity: https://www.perplexity.ai/settings/api\n\nCLAUDE_API_KEY=YOUR_ANTHROPIC_API_KEY_HERE\nPERPLEXITY_API_KEY=YOUR_PERPLEXITY_API_KEY_HERE\nPORT=3000\n"

/-- `check_env_file`: when `.env` is absent, create it from the template
and return false; otherwise read it and return false when the
placeholder heuristic fires (`'YOUR_' in content or 'sk-proj-' in
content or content.count('pplx-') == 1`), true otherwise. -/
def check_env_file (env : Env) : List Effect × Bool :=
  match env.envFile with
  | none => ([.writeFile ".env" templateContent], false)
  | some content =>
    ([.readFile ".env"],
     !(strContains "YOUR_" content || strContains "sk-proj-" content
       || countSub "pplx-" content == 1))

/-- The polling loop of `start_server`: `for i in range(10): sleep(1);
if is_server_running(): <success>; return`, then the failure report.
`envOk` is the `has_valid_env` flag shown with the success report. -/
def waitLoop (env : Env) (envOk : Bool) (t : Nat) : Nat → List Effect × Nat
  | 0 => ([.reportStartFailure], t)
  | n + 1 =>
    if is_server_running env (t + 1) then
      ([.sleep 1, probeEff env (t + 1), .reportStartSuccess envOk], t + 1)
    else
      let w := waitLoop env envOk (t + 1) n
      (.sleep 1 :: probeEff env (t + 1) :: w.1, w.2)

/-- `start_server`: already running is a no-op with a notice; otherwise
prerequisite checks (node installed, dependencies, `.env`), a single
platform-dependent detached spawn, then the bounded liveness poll. -/
def start_server (env : Env) (t : Nat) : List Effect × Nat :=
  if is_server_running env t then
    ([probeEff env t, .noticeAlreadyRunning], t)
  else if !env.nodeInstalled then
    ([probeEff env t, .checkNode false, .reportNodeMissing], t)
  else
    let deps := check_dependencies env
    if !deps.2 then
      ([probeEff env t, .checkNode true] ++ deps.1 ++ [.raiseInstallError], t)
    else
      let envc := check_env_file env
      let w := waitLoop env envc.2 t 10
      ([probeEff env t, .checkNode true] ++ deps.1 ++ envc.1
        ++ [.spawn env.platformWin] ++ w.1, w.2)

/-- `stop_server`: enumerate matching processes; when none, report
nothing-to-stop; otherwise attempt `terminate()` on each pid, sleep one
second, and re-check liveness once to pick the final report. -/
def stop_server (env : Env) (t : Nat) : List Effect × Nat :=
  let pids := find_node_processes env.procs
  if pids.isEmpty then
    ([.procScan pids, .reportNothingToStop], t)
  else
    ([.procScan pids]
      ++ pids.map (fun p => Effect.termSignal p (env.termOk p))
      ++ [.sleep 1, probeEff env (t + 1),
          if is_server_running env (t + 1) then .reportStopWarning
          else .reportStopSuccess], t + 1)

/-- `restart_server`: `stop_server()`, `time.sleep(2)`, `start_server()`. -/
def restart_server (env : Env) (t : Nat) : List Effect × Nat :=
  let s := stop_server env t
  let st := start_server env (s.2 + 2)
  (s.1 ++ Effect.sleep 2 :: st.1, st.2)

/-- `check_status`: probe liveness; when running, report it and scan for
pids, printing the pid list only when it is non-empty; otherwise report
not-running (without scanning). -/
def check_status (env : Env) (t : Nat) : List Effect × Nat :=
  if is_server_running env t then
    let pids := find_node_processes env.procs
    ([probeEff env t, .reportRunning, .procScan pids]
      ++ (if pids.isEmpty then [] else [.reportPids pids]), t)
  else
    ([probeEff env t, .reportNotRunning], t)

/-- The subcommand table of `main`. -/
def knownCommands : List String :=
  ["start", "stop", "restart", "status", "help"]

namespace Manage

/-- `main`: with no argument show help; otherwise lower-case the first
argument, dispatch it through the command table, and fall back to an
unknown-command message plus help. -/
def main (env : Env) (sysArgv : List String) (t : Nat) : List Effect × Nat :=
  match sysArgv with
  | [] => ([.showHelp], t)
  | [_] => ([.showHelp], t)
  | _ :: cmd :: _ =>
    let c := lowerString cmd
    if c = "start" then start_server env t
    else if c = "stop" then stop_server env t
    else if c = "restart" then restart_server env t
    else if c = "status" then check_status env t
    else if c = "help" then ([.showHelp], t)
    else ([.reportUnknown c, .showHelp], t)

end Manage

/-- Projection to the pid of a termination-signal effect. -/
def effTermPid : Effect → Option Nat
  | .termSignal p _ => some p
  | _ => none

/-- Projection to the clock value of an HTTP-probe effect. -/
def effProbeTime : Effect → Option Nat
  | .httpGet _ _ time _ => some time
  | _ => none

/-- Whether an effect is a process spawn. -/
def effIsSpawn : Effect → Bool
  | .spawn _ => true
  | _ => false

/-- Projection to the path-content pair of a file-write effect. -/
def effWrite : Effect → Option (String × String)
  | .writeFile p c => some (p, c)
  | _ => none

/-- Pids carried by the termination-signal effects of a trace. -/
def termPids (tr : List Effect) : List Nat :=
  tr.filterMap effTermPid

/-- Clock values at which a trace issues HTTP probes. -/
def probeTimes (tr : List Effect) : List Nat :=
  tr.filterMap effProbeTime

/-- Number of process spawns in a trace. -/
def spawnCount (tr : List Effect) : Nat :=
  (tr.filter effIsSpawn).length

/-- File writes performed by a trace, as path-content pairs. -/
def fileWrites (tr : List Effect) : List (String × String) :=
  tr.filterMap effWrite

/-- Whether an effect is a pid report of `check_status`. -/
def isPidReport : Effect → Bool
  | .reportPids _ => true
  | _ => false

/-- Whether an effect is a process-table scan. -/
def isScan : Effect → Bool
  | .procScan _ => true
  | _ => false

/-- Spec-side composition for the restart claim: `stop()`, a fixed
2-second pause, then `start()` on the advanced clock, nothing else
carried over. -/
def stopThenStart (env : Env) (t : Nat) : List Effect × Nat :=
  let s := stop_server env t
  let st := start_server env (s.2 + 2)
  (s.1 ++ Effect.sleep 2 :: st.1, st.2)

set_option maxRecDepth 4000 in
/-- `matchesEntry` spelled out: name present and containing "node"
case-insensitively, and some command-line word containing "server.js". -/
lemma matchesEntry_iff (e : ProcEntry) :
    matchesEntry e = true ↔
      (∃ n, e.name = some n ∧ strContains "node" (lowerString n) = true) ∧
      (∃ cl, e.cmdline = some cl ∧ ∃ c ∈ cl, strContains "server.js" c = true) := by
  unfold matchesEntry
  cases hn : e.name with
  | none => simp
  | some n =>
    cases hc : e.cmdline with
    | none => simp
    | some cl => simp [List.any_eq_true]

/-- C4: `isRunning()` is true iff the HTTP GET to the fixed endpoint
(port 3000, path /api/load-files, 2-second timeout) returns status 200;
every network error and every non-200 status yields false, and the
response body is irrelevant. -/
theorem is_running_iff_http_200 (env : Env) (t : Nat) :
    is_server_running env t = true ↔
      ∃ body, env.http serverUrl 2 t = .success 200 body := by
  unfold is_server_running
  cases h : env.http serverUrl 2 t with
  | success s b =>
    simp only [beq_iff_eq, HttpResult.success.injEq]
    constructor
    · intro hs
      exact ⟨b, hs, rfl⟩
    · rintro ⟨body, hs, h2⟩
      exact hs
  | netError => simp

/-- C5: `findProcesses()` returns exactly the pids of (observable)
process-table entries whose name contains "node" case-insensitively and
whose command line mentions "server.js"; in particular it is empty when
no entry matches. -/
theorem find_procs_exact (table : List ProcEntry) (p : Nat) :
    p ∈ find_node_processes table ↔
      ∃ e ∈ table, e.vanished = false ∧ e.pid = p ∧
        (∃ n, e.name = some n ∧ strContains "node" (lowerString n) = true) ∧
        (∃ cl, e.cmdline = some cl ∧ ∃ c ∈ cl, strContains "server.js" c = true) := by
  unfold find_node_processes
  simp only [List.mem_map, List.mem_filter, Bool.and_eq_true, Bool.not_eq_true']
  constructor
  · rintro ⟨e, ⟨he, hv, hm⟩, rfl⟩
    exact ⟨e, he, hv, rfl, (matchesEntry_iff e).1 hm⟩
  · rintro ⟨e, he, hv, rfl, h1, h2⟩
    exact ⟨e, ⟨he, hv, (matchesEntry_iff e).2 ⟨h1, h2⟩⟩, rfl⟩

/-- C10: the scan of `findProcesses()` never fails on a process that
vanishes or denies access mid-scan: such entries are silently skipped,
so the result is the same as scanning only the observable entries. -/
theorem find_procs_skips_vanished (table : List ProcEntry) :
    find_node_processes table =
      find_node_processes (table.filter (fun e => !e.vanished)) := by
  induction table with
  | nil => rfl
  | cons e rest ih =>
    unfold find_node_processes at ih ⊢
    cases hv : e.vanished with
    | true => simpa [List.filter_cons, hv] using ih
    | false =>
      cases hm : matchesEntry e with
      | true => simp [List.filter_cons, hv, hm, ih]
      | false => simp [List.filter_cons, hv, hm, ih]

/-- C6: `restart()` is exactly the sequential composition of `stop()`,
a fixed 2-second pause, and `start()`, with only the elapsed clock
carried from the stop phase to the start phase. -/
theorem restart_is_stop_then_start (env : Env) (t : Nat) :
    restart_server env t = stopThenStart env t := rfl

/-- C1: when the server is already live, `start()` performs only the
initial probe and a notice: no prerequisite check, no spawn, no
termination signal, no polling, and the clock does not advance. -/
theorem start_noop_when_running (env : Env) (t : Nat)
    (h : is_server_running env t = true) :
    (start_server env t).1 = [.httpGet serverUrl 2 t true, .noticeAlreadyRunning] ∧
    (start_server env t).2 = t ∧
    spawnCount (start_server env t).1 = 0 ∧
    termPids (start_server env t).1 = [] ∧
    probeTimes (start_server env t).1 = [t] := by
  simp [start_server, probeEff, h, spawnCount, termPids, probeTimes,
    effIsSpawn, effTermPid, effProbeTime]

/-- A live environment used to instantiate the no-op start theorem; all
prerequisites deliberately fail, showing they are never consulted. -/
def envLiveW : Env :=
  { http := fun _ _ _ => .success 200 "", procs := [], nodeInstalled := false,
    hasNodeModules := false, npmInstallOk := false, envFile := none,
    termOk := fun _ => false, platformWin := false }

/-- `termPids` distributes over trace concatenation. -/
lemma termPids_append (a b : List Effect) :
    termPids (a ++ b) = termPids a ++ termPids b :=
  List.filterMap_append a b effTermPid

/-- `probeTimes` distributes over trace concatenation. -/
lemma probeTimes_append (a b : List Effect) :
    probeTimes (a ++ b) = probeTimes a ++ probeTimes b :=
  List.filterMap_append a b effProbeTime

/-- `fileWrites` distributes over trace concatenation. -/
lemma fileWrites_append (a b : List Effect) :
    fileWrites (a ++ b) = fileWrites a ++ fileWrites b :=
  List.filterMap_append a b effWrite

/-- `spawnCount` adds up over trace concatenation. -/
lemma spawnCount_append (a b : List Effect) :
    spawnCount (a ++ b) = spawnCount a + spawnCount b := by
  simp [spawnCount, List.filter_append]

/-- The termination signals sent for a pid list carry exactly that list. -/
lemma termPids_sigs (f : Nat → Bool) (pids : List Nat) :
    termPids (pids.map (fun p => Effect.termSignal p (f p))) = pids := by
  induction pids with
  | nil => rfl
  | cons p rest ih =>
    simpa [termPids, List.filterMap_cons, effTermPid] using ih

/-- Termination signals issue no HTTP probes. -/
lemma probeTimes_sigs (f : Nat → Bool) (pids : List Nat) :
    probeTimes (pids.map (fun p => Effect.termSignal p (f p))) = [] := by
  induction pids with
  | nil => rfl
  | cons p rest ih =>
    simp [probeTimes, List.filterMap_cons, effProbeTime, ih]

/-- Termination signals write no files. -/
lemma fileWrites_sigs (f : Nat → Bool) (pids : List Nat) :
    fileWrites (pids.map (fun p => Effect.termSignal p (f p))) = [] := by
  induction pids with
  | nil => rfl
  | cons p rest ih =>
    simp [fileWrites, List.filterMap_cons, effWrite, ih]

/-- C3: `stop()` with no matching process reports nothing-to-stop and
signals nobody; otherwise it signals every enumerated pid once, sleeps
one second, re-checks liveness exactly once (at clock `t + 1`), and its
final report is decided by that single re-check. -/
theorem stop_signals_then_single_recheck (env : Env) (t : Nat) :
    (find_node_processes env.procs = [] →
      (stop_server env t).1 = [.procScan [], .reportNothingToStop] ∧
      termPids (stop_server env t).1 = [] ∧
      (stop_server env t).2 = t) ∧
    (find_node_processes env.procs ≠ [] →
      termPids (stop_server env t).1 = find_node_processes env.procs ∧
      probeTimes (stop_server env t).1 = [t + 1] ∧
      Effect.sleep 1 ∈ (stop_server env t).1 ∧
      (stop_server env t).1.getLast? =
        some (if is_server_running env (t + 1) then .reportStopWarning
              else .reportStopSuccess) ∧
      (stop_server env t).2 = t + 1) := by
  constructor
  · intro h
    simp [stop_server, h, termPids, List.filterMap_cons, effTermPid]
  · intro h
    have hne : (find_node_processes env.procs).isEmpty = false :=
      List.isEmpty_eq_false.mpr h
    simp only [stop_server, hne, Bool.false_eq_true, if_false]
    cases hr : is_server_running env (t + 1) with
    | true =>
      refine ⟨?_, ?_, ?_, ?_, trivial⟩
      · rw [termPids_append, termPids_append, termPids_sigs]
        simp [termPids, List.filterMap_cons, effTermPid, probeEff]
      · rw [probeTimes_append, probeTimes_append, probeTimes_sigs]
        simp [probeTimes, List.filterMap_cons, effProbeTime, probeEff]
      · simp
      · rw [List.getLast?_append_cons]
        rfl
    | false =>
      refine ⟨?_, ?_, ?_, ?_, trivial⟩
      · rw [termPids_append, termPids_append, termPids_sigs]
        simp [termPids, List.filterMap_cons, effTermPid, probeEff]
      · rw [probeTimes_append, probeTimes_append, probeTimes_sigs]
        simp [probeTimes, List.filterMap_cons, effProbeTime, probeEff]
      · simp
      · rw [List.getLast?_append_cons]
        rfl

/-- Environment with one matching server process and a dead endpoint. -/
def envStopW : Env :=
  { http := fun _ _ _ => .netError,
    procs := [⟨5, some "node", some ["node", "server.js"], false⟩],
    nodeInstalled := true, hasNodeModules := true, npmInstallOk := true,
    envFile := some "k", termOk := fun _ => true, platformWin := false }

/-- Environment with an empty process table and a dead endpoint. -/
def envStopE : Env :=
  { http := fun _ _ _ => .netError, procs := [], nodeInstalled := true,
    hasNodeModules := true, npmInstallOk := true, envFile := some "k",
    termOk := fun _ => true, platformWin := false }

/-- Concrete instances of both branches of the stop theorem. -/
theorem stop_signals_then_single_recheck_w :
    ((stop_server envStopE 0).1 = [.procScan [], .reportNothingToStop] ∧
     termPids (stop_server envStopE 0).1 = [] ∧
     (stop_server envStopE 0).2 = 0) ∧
    (termPids (stop_server envStopW 0).1 = find_node_processes envStopW.procs ∧
     probeTimes (stop_server envStopW 0).1 = [0 + 1] ∧
     Effect.sleep 1 ∈ (stop_server envStopW 0).1 ∧
     (stop_server envStopW 0).1.getLast? =
       some (if is_server_running envStopW (0 + 1) then .reportStopWarning
             else .reportStopSuccess) ∧
     (stop_server envStopW 0).2 = 0 + 1) :=
  ⟨(stop_signals_then_single_recheck envStopE 0).1 rfl,
   (stop_signals_then_single_recheck envStopW 0).2 (by decide)⟩

/-- An effect that is not a file write leaves `fileWrites` unchanged. -/
lemma fileWrites_cons_nw (e : Effect) (tr : List Effect)
    (h : effWrite e = none) : fileWrites (e :: tr) = fileWrites tr := by
  simp [fileWrites, List.filterMap_cons, h]

/-- The polling loop writes no files. -/
lemma waitLoop_no_writes (env : Env) (c : Bool) :
    ∀ (n t : Nat), fileWrites (waitLoop env c t n).1 = [] := by
  intro n
  induction n with
  | zero => intro t; rfl
  | succ m ih =>
    intro t
    unfold waitLoop
    cases hr : is_server_running env (t + 1) with
    | true => simp [fileWrites, List.filterMap_cons, effWrite, probeEff]
    | false =>
      simp only [Bool.false_eq_true, if_false]
      rw [fileWrites_cons_nw (.sleep 1) _ rfl,
        fileWrites_cons_nw (probeEff env (t + 1)) _ rfl, ih]

/-- `stop_server` writes no files. -/
lemma stop_no_writes (env : Env) (t : Nat) :
    fileWrites (stop_server env t).1 = [] := by
  cases he : (find_node_processes env.procs).isEmpty with
  | true => simp [stop_server, he, fileWrites, List.filterMap_cons, effWrite]
  | false =>
    simp only [stop_server, he, Bool.false_eq_true, if_false]
    cases hr : is_server_running env (t + 1) <;>
      · rw [fileWrites_append, fileWrites_append, fileWrites_sigs]
        simp [fileWrites, List.filterMap_cons, effWrite, probeEff]

/-- `check_status` writes no files. -/
lemma status_no_writes (env : Env) (t : Nat) :
    fileWrites (check_status env t).1 = [] := by
  cases hr : is_server_running env t with
  | true =>
    cases he : (find_node_processes env.procs).isEmpty <;>
      simp [check_status, hr, he, fileWrites, List.filterMap_cons,
        List.filterMap_append, effWrite, probeEff]
  | false => simp [check_status, hr, fileWrites, List.filterMap_cons, effWrite, probeEff]

/-- When `.env` exists, `start_server` writes no files. -/
lemma start_no_writes_of_env_present (env : Env) (t : Nat) (c : String)
    (h : env.envFile = some c) :
    fileWrites (start_server env t).1 = [] := by
  unfold start_server
  cases hr : is_server_running env t with
  | true => rfl
  | false =>
    cases hn : env.nodeInstalled with
    | false => rfl
    | true =>
      cases hd : env.hasNodeModules with
      | true =>
        simp only [check_dependencies, check_env_file, hd, h, Bool.not_true,
          Bool.false_eq_true, if_false, if_true, Bool.not_false]
        rw [fileWrites_append, fileWrites_append, fileWrites_append,
          fileWrites_append, waitLoop_no_writes]
        simp [fileWrites, List.filterMap_cons, effWrite, probeEff]
      | false =>
        cases ho : env.npmInstallOk with
        | true =>
          simp only [check_dependencies, check_env_file, hd, ho, h, Bool.not_true,
            Bool.false_eq_true, if_false, if_true, Bool.not_false]
          rw [fileWrites_append, fileWrites_append, fileWrites_append,
            fileWrites_append, waitLoop_no_writes]
          simp [fileWrites, List.filterMap_cons, effWrite, probeEff]
        | false =>
          simp only [check_dependencies, hd, ho, Bool.not_true, Bool.false_eq_true,
            if_false, Bool.not_false, if_true]
          rw [fileWrites_append, fileWrites_append]
          simp [fileWrites, List.filterMap_cons, effWrite, probeEff]

/-- C8: the `.env` check creates the file from the fixed template when
it is absent, and when it is present no operation of the controller
performs any file write at all. -/
theorem env_file_create_once (env : Env) (t : Nat) :
    (env.envFile = none →
      (check_env_file env).1 = [.writeFile ".env" templateContent]) ∧
    (∀ c, env.envFile = some c →
      fileWrites (start_server env t).1 = [] ∧
      fileWrites (stop_server env t).1 = [] ∧
      fileWrites (restart_server env t).1 = [] ∧
      fileWrites (check_status env t).1 = []) := by
  constructor
  · intro h
    simp [check_env_file, h]
  · intro c h
    refine ⟨start_no_writes_of_env_present env t c h, stop_no_writes env t,
      ?_, status_no_writes env t⟩
    simp only [restart_server]
    rw [fileWrites_append, stop_no_writes, fileWrites_cons_nw (.sleep 2) _ rfl,
      start_no_writes_of_env_present _ _ c h]
    rfl

/-- Environment without a `.env` file. -/
def envNoFile : Env :=
  { http := fun _ _ _ => .netError, procs := [], nodeInstalled := true,
    hasNodeModules := true, npmInstallOk := true, envFile := none,
    termOk := fun _ => true, platformWin := false }

/-- Environment with an existing `.env` file. -/
def envWithFile : Env :=
  { envNoFile with envFile := some "CLAUDE_API_KEY=sk-ant-api03-q\n" }

/-- Concrete instances of both branches of the `.env` theorem. -/
theorem env_file_create_once_w :
    ((check_env_file envNoFile).1 = [.writeFile ".env" templateContent]) ∧
    (fileWrites (start_server envWithFile 0).1 = [] ∧
     fileWrites (stop_server envWithFile 0).1 = [] ∧
     fileWrites (restart_server envWithFile 0).1 = [] ∧
     fileWrites (check_status envWithFile 0).1 = []) :=
  ⟨(env_file_create_once envNoFile 0).1 rfl,
   (env_file_create_once envWithFile 0).2 "CLAUDE_API_KEY=sk-ant-api03-q\n" rfl⟩

/-- Live-server environment with one matching process, for the status
theorems. -/
def envStatusUp : Env :=
  { http := fun _ _ _ => .success 200 "ok",
    procs := [⟨7, some "node", some ["node", "server.js"], false⟩],
    nodeInstalled := true, hasNodeModules := true, npmInstallOk := true,
    envFile := some "x", termOk := fun _ => true, platformWin := false }

/-- Dead-server environment with one matching process. -/
def envStatusDown : Env :=
  { envStatusUp with http := fun _ _ _ => .netError }

/-- C7 counterexample: with the server down but a matching process in
the table, `status()` reports only not-running: it performs no process
scan and reports no pid, although `findProcesses()` would return pid 7.
This falsifies the claim that the report always includes the pids. -/
theorem check_status_omits_pids_when_down :
    find_node_processes envStatusDown.procs = [7] ∧
    (check_status envStatusDown 0).1 =
      [.httpGet serverUrl 2 0 false, .reportNotRunning] ∧
    (check_status envStatusDown 0).1.filter isPidReport = [] ∧
    (check_status envStatusDown 0).1.filter isScan = [] := by
  refine ⟨rfl, rfl, rfl, rfl⟩

/-- C7 amended: `status()` always reports the liveness result; only when
the server is live does it scan and report the process identifiers, and
the pid list is printed only when non-empty. -/
theorem check_status_reports (env : Env) (t : Nat) :
    (is_server_running env t = true →
      (check_status env t).1 =
        [probeEff env t, .reportRunning,
          .procScan (find_node_processes env.procs)] ++
          (if (find_node_processes env.procs).isEmpty then []
           else [.reportPids (find_node_processes env.procs)]) ∧
      (check_status env t).2 = t) ∧
    (is_server_running env t = false →
      (check_status env t).1 = [probeEff env t, .reportNotRunning] ∧
      (check_status env t).2 = t) := by
  constructor
  · intro h
    simp [check_status, h]
  · intro h
    simp [check_status, h]

/-- Concrete instances of both branches of the status theorem. -/
theorem check_status_reports_w :
    (is_server_running envStatusUp 0 = true ∧
     ((check_status envStatusUp 0).1 =
        [probeEff envStatusUp 0, .reportRunning,
          .procScan (find_node_processes envStatusUp.procs)] ++
          (if (find_node_processes envStatusUp.procs).isEmpty then []
           else [.reportPids (find_node_processes envStatusUp.procs)]) ∧
      (check_status envStatusUp 0).2 = 0)) ∧
    (is_server_running envStatusDown 0 = false ∧
     ((check_status envStatusDown 0).1 =
        [probeEff envStatusDown 0, .reportNotRunning] ∧
      (check_status envStatusDown 0).2 = 0)) :=
  ⟨⟨rfl, (check_status_reports envStatusUp 0).1 rfl⟩,
   ⟨rfl, (check_status_reports envStatusDown 0).2 rfl⟩⟩

/-- Live-server environment for the dispatch theorems. -/
def envMainUp : Env :=
  { http := fun _ _ _ => .success 200 "ok", procs := [],
    nodeInstalled := true, hasNodeModules := true, npmInstallOk := true,
    envFile := some "x", termOk := fun _ => true, platformWin := false }

/-- C9 counterexample: the input "START" is none of the five literal
subcommand strings, yet it does not fall back to the help text: it is
dispatched (after lower-casing) to the start operation. -/
theorem main_dispatches_uppercase_start :
    (Manage.main envMainUp ["manage.py", "START"] 0).1 =
      [.httpGet serverUrl 2 0 true, .noticeAlreadyRunning] ∧
    Effect.showHelp ∉ (Manage.main envMainUp ["manage.py", "START"] 0).1 := by
  refine ⟨rfl, by decide⟩

/-- C9 amended: with fewer than two argv entries `main` shows the help
text; otherwise the lowercased first argument selects among the five
subcommands, and anything else prints an unknown-command message
followed by the help text. -/
theorem main_dispatch (env : Env) (sysArgv : List String) (t : Nat) :
    (sysArgv.length < 2 → Manage.main env sysArgv t = ([.showHelp], t)) ∧
    (∀ a cmd rest, sysArgv = a :: cmd :: rest →
      (lowerString cmd = "start" →
        Manage.main env sysArgv t = start_server env t) ∧
      (lowerString cmd = "stop" →
        Manage.main env sysArgv t = stop_server env t) ∧
      (lowerString cmd = "restart" →
        Manage.main env sysArgv t = restart_server env t) ∧
      (lowerString cmd = "status" →
        Manage.main env sysArgv t = check_status env t) ∧
      (lowerString cmd = "help" →
        Manage.main env sysArgv t = ([.showHelp], t)) ∧
      (lowerString cmd ∉ knownCommands →
        Manage.main env sysArgv t =
          ([.reportUnknown (lowerString cmd), .showHelp], t))) := by
  constructor
  · intro h
    cases sysArgv with
    | nil => rfl
    | cons a rest2 =>
      cases rest2 with
      | nil => rfl
      | cons b rest3 =>
        simp only [List.length_cons] at h
        omega
  · rintro a cmd rest rfl
    refine ⟨?_, ?_, ?_, ?_, ?_, ?_⟩
    · intro h
      simp [Manage.main, h]
    · intro h
      simp [Manage.main, h]
    · intro h
      simp [Manage.main, h]
    · intro h
      simp [Manage.main, h]
    · intro h
      simp [Manage.main, h]
    · intro h
      simp only [knownCommands, List.mem_cons, not_or] at h
      obtain ⟨h1, h2, h3, h4, h5, -⟩ := h
      simp [Manage.main, h1, h2, h3, h4, h5]

/-- Concrete instances of the dispatch theorem: missing subcommand shows
help; "STOP" dispatches to the stop operation. -/
theorem main_dispatch_w :
    Manage.main envMainUp [] 0 = ([.showHelp], 0) ∧
    Manage.main envMainUp ["manage.py", "STOP"] 0 = stop_server envMainUp 0 :=
  ⟨(main_dispatch envMainUp [] 0).1 (by decide),
   ((main_dispatch envMainUp ["manage.py", "STOP"] 0).2 "manage.py" "STOP" []
      rfl).2.1 (by decide)⟩

/-- Concrete instance of the no-op start theorem. -/
theorem start_noop_when_running_w :
    is_server_running envLiveW 0 = true ∧
    ((start_server envLiveW 0).1 = [.httpGet serverUrl 2 0 true, .noticeAlreadyRunning] ∧
     (start_server envLiveW 0).2 = 0 ∧
     spawnCount (start_server envLiveW 0).1 = 0 ∧
     termPids (start_server envLiveW 0).1 = [] ∧
     probeTimes (start_server envLiveW 0).1 = [0]) :=
  ⟨rfl, start_noop_when_running envLiveW 0 rfl⟩

/-- A list with a defined last element is non-empty. -/
lemma ne_nil_of_getLast?_some {α : Type} {tr : List α} {e : α}
    (h : tr.getLast? = some e) : tr ≠ [] := by
  intro hnil
  rw [hnil] at h
  simp at h

/-- Dropping two leading elements preserves the last element of a
non-empty tail. -/
lemma getLast?_two_cons {α : Type} (a b : α) (tr : List α) (h : tr ≠ []) :
    (a :: b :: tr).getLast? = tr.getLast? := by
  rw [List.getLast?_cons_cons]
  cases tr with
  | nil => exact absurd rfl h
  | cons x xs => rw [List.getLast?_cons_cons]

/-- A sleep effect contributes no probe time. -/
lemma probeTimes_cons_sleep (s : Nat) (tr : List Effect) :
    probeTimes (Effect.sleep s :: tr) = probeTimes tr := by
  simp [probeTimes, List.filterMap_cons, effProbeTime]

/-- A probe effect contributes its clock value. -/
lemma probeTimes_cons_probe (env : Env) (u : Nat) (tr : List Effect) :
    probeTimes (probeEff env u :: tr) = u :: probeTimes tr := by
  simp [probeTimes, List.filterMap_cons, effProbeTime, probeEff]

/-- A non-spawn effect does not change the spawn count. -/
lemma spawnCount_cons_ns (e : Effect) (tr : List Effect)
    (h : effIsSpawn e = false) : spawnCount (e :: tr) = spawnCount tr := by
  simp [spawnCount, List.filter_cons, h]

/-- Unfolding of the polling loop when the next probe succeeds. -/
lemma waitLoop_succ_true (env : Env) (c : Bool) (t n : Nat)
    (h : is_server_running env (t + 1) = true) :
    waitLoop env c t (n + 1) =
      ([.sleep 1, probeEff env (t + 1), .reportStartSuccess c], t + 1) := by
  simp [waitLoop, h]

/-- Unfolding of the polling loop when the next probe fails. -/
lemma waitLoop_succ_false (env : Env) (c : Bool) (t n : Nat)
    (h : is_server_running env (t + 1) = false) :
    waitLoop env c t (n + 1) =
      (Effect.sleep 1 :: probeEff env (t + 1) :: (waitLoop env c (t + 1) n).1,
       (waitLoop env c (t + 1) n).2) := by
  simp [waitLoop, h]

/-- The polling loop never spawns a process. -/
lemma waitLoop_spawns_none (env : Env) (c : Bool) :
    ∀ (n t : Nat), spawnCount (waitLoop env c t n).1 = 0 := by
  intro n
  induction n with
  | zero => intro t; rfl
  | succ m ih =>
    intro t
    cases hr : is_server_running env (t + 1) with
    | true => rw [waitLoop_succ_true env c t m hr]; rfl
    | false =>
      rw [waitLoop_succ_false env c t m hr]
      show spawnCount (Effect.sleep 1 :: probeEff env (t + 1)
        :: (waitLoop env c (t + 1) m).1) = 0
      rw [spawnCount_cons_ns (.sleep 1) _ rfl,
        spawnCount_cons_ns (probeEff env (t + 1)) _ rfl, ih]

/-- Shifting a consecutive-times list by one step: the times
`t+1, ..., t+k+1` are `t+1` followed by the times starting at `t+1`. -/
lemma map_add_shift (t k : Nat) :
    (List.range (k + 1)).map (fun j => t + j + 1) =
      (t + 1) :: (List.range k).map (fun j => (t + 1) + j + 1) := by
  rw [List.range_succ_eq_map, List.map_cons, List.map_map]
  have hfun : ((fun j : Nat => t + j + 1) ∘ Nat.succ)
      = (fun j : Nat => (t + 1) + j + 1) := by
    funext j
    simp [Function.comp]
    omega
  rw [hfun]

/-- When poll `i` (counting from 0) is the first to succeed within the
fuel budget, the loop probes exactly at `t+1, ..., t+i+1`, ends with the
success report, stops the clock at `t+i+1`, and spawns nothing. -/
lemma waitLoop_success (env : Env) (c : Bool) :
    ∀ (n t i : Nat), i < n →
      is_server_running env (t + i + 1) = true →
      (∀ j, j < i → is_server_running env (t + j + 1) = false) →
      probeTimes (waitLoop env c t n).1 =
        (List.range (i + 1)).map (fun j => t + j + 1) ∧
      (waitLoop env c t n).1.getLast? = some (.reportStartSuccess c) ∧
      (waitLoop env c t n).2 = t + i + 1 := by
  intro n
  induction n with
  | zero =>
    intro t i hi _ _
    exact absurd hi (Nat.not_lt_zero i)
  | succ m ih =>
    intro t i hi hp hmin
    cases i with
    | zero =>
      have h1 : is_server_running env (t + 1) = true := by simpa using hp
      rw [waitLoop_succ_true env c t m h1]
      refine ⟨?_, rfl, rfl⟩
      show probeTimes [Effect.sleep 1, probeEff env (t + 1),
        Effect.reportStartSuccess c] = _
      rw [probeTimes_cons_sleep, probeTimes_cons_probe]
      simp [probeTimes, List.filterMap_cons, effProbeTime, List.range_succ]
    | succ k =>
      have h0 : is_server_running env (t + 1) = false := by
        simpa using hmin 0 (Nat.succ_pos k)
      rw [waitLoop_succ_false env c t m h0]
      have hk : k < m := by omega
      have hp2 : is_server_running env ((t + 1) + k + 1) = true := by
        have he : (t + 1) + k + 1 = t + (k + 1) + 1 := by omega
        rw [he]
        exact hp
      have hmin2 : ∀ j, j < k →
          is_server_running env ((t + 1) + j + 1) = false := by
        intro j hj
        have he : (t + 1) + j + 1 = t + (j + 1) + 1 := by omega
        rw [he]
        exact hmin (j + 1) (by omega)
      obtain ⟨l1, l2, l3⟩ := ih (t + 1) k hk hp2 hmin2
      refine ⟨?_, ?_, ?_⟩
      · show probeTimes (Effect.sleep 1 :: probeEff env (t + 1)
          :: (waitLoop env c (t + 1) m).1) = _
        rw [probeTimes_cons_sleep, probeTimes_cons_probe, l1,
          map_add_shift t (k + 1)]
      · show (Effect.sleep 1 :: probeEff env (t + 1)
          :: (waitLoop env c (t + 1) m).1).getLast? = _
        rw [getLast?_two_cons _ _ _ (ne_nil_of_getLast?_some l2)]
        exact l2
      · show (waitLoop env c (t + 1) m).2 = _
        rw [l3]
        omega

/-- When every poll within the fuel budget fails, the loop probes at
`t+1, ..., t+n`, ends with the failure report, stops the clock at
`t+n`, and spawns nothing. -/
lemma waitLoop_timeout (env : Env) (c : Bool) :
    ∀ (n t : Nat),
      (∀ j, j < n → is_server_running env (t + j + 1) = false) →
      probeTimes (waitLoop env c t n).1 =
        (List.range n).map (fun j => t + j + 1) ∧
      (waitLoop env c t n).1.getLast? = some .reportStartFailure ∧
      (waitLoop env c t n).2 = t + n := by
  intro n
  induction n with
  | zero =>
    intro t _
    exact ⟨rfl, rfl, rfl⟩
  | succ m ih =>
    intro t h
    have h0 : is_server_running env (t + 1) = false := by
      simpa using h 0 (Nat.succ_pos m)
    rw [waitLoop_succ_false env c t m h0]
    have hsh : ∀ j, j < m →
        is_server_running env ((t + 1) + j + 1) = false := by
      intro j hj
      have he : (t + 1) + j + 1 = t + (j + 1) + 1 := by omega
      rw [he]
      exact h (j + 1) (by omega)
    obtain ⟨l1, l2, l3⟩ := ih (t + 1) hsh
    refine ⟨?_, ?_, ?_⟩
    · show probeTimes (Effect.sleep 1 :: probeEff env (t + 1)
        :: (waitLoop env c (t + 1) m).1) = _
      rw [probeTimes_cons_sleep, probeTimes_cons_probe, l1,
        map_add_shift t m]
    · show (Effect.sleep 1 :: probeEff env (t + 1)
        :: (waitLoop env c (t + 1) m).1).getLast? = _
      rw [getLast?_two_cons _ _ _ (ne_nil_of_getLast?_some l2)]
      exact l2
    · show (waitLoop env c (t + 1) m).2 = _
      rw [l3]
      omega

/-- `find?` over `range n` yields the least index satisfying the
predicate, or a proof that no index below `n` does. -/
lemma find?_range_first (p : Nat → Bool) : ∀ n : Nat,
    match (List.range n).find? p with
    | some i => i < n ∧ p i = true ∧ ∀ j, j < i → p j = false
    | none => ∀ j, j < n → p j = false := by
  intro n
  induction n with
  | zero =>
    intro j hj
    exact absurd hj (Nat.not_lt_zero j)
  | succ m ih =>
    rw [List.range_succ, List.find?_append]
    cases hf : (List.range m).find? p with
    | some i =>
      rw [hf] at ih
      obtain ⟨h1, h2, h3⟩ := ih
      exact ⟨by omega, h2, h3⟩
    | none =>
      rw [hf] at ih
      cases hp : p m with
      | true =>
        simp only [Option.none_or, List.find?_cons, hp]
        exact ⟨Nat.lt_succ_self m, trivial, ih⟩
      | false =>
        simp only [Option.none_or, List.find?_cons, hp]
        intro j hj
        rcases Nat.lt_succ_iff_lt_or_eq.mp hj with h | rfl
        · exact ih j h
        · exact hp

/-- The dependency check emits no spawn. -/
lemma spawnCount_deps (env : Env) : spawnCount (check_dependencies env).1 = 0 := by
  unfold check_dependencies
  cases hd : env.hasNodeModules <;> rfl

/-- The `.env` check emits no spawn. -/
lemma spawnCount_envc (env : Env) : spawnCount (check_env_file env).1 = 0 := by
  unfold check_env_file
  cases he : env.envFile <;> rfl

/-- The dependency check issues no HTTP probe. -/
lemma probeTimes_deps (env : Env) : probeTimes (check_dependencies env).1 = [] := by
  unfold check_dependencies
  cases hd : env.hasNodeModules <;> rfl

/-- The `.env` check issues no HTTP probe. -/
lemma probeTimes_envc (env : Env) : probeTimes (check_env_file env).1 = [] := by
  unfold check_env_file
  cases he : env.envFile <;> rfl

/-- The dependency check reports success when `node_modules` exists or
the install succeeds. -/
lemma deps_ok (env : Env)
    (hdeps : env.hasNodeModules = true ∨ env.npmInstallOk = true) :
    (check_dependencies env).2 = true := by
  unfold check_dependencies
  rcases hdeps with h | h
  · simp [h]
  · cases hd : env.hasNodeModules <;> simp [h, hd]

/-- Shape of `start_server` when the server is down and the prerequisite
checks pass: checks, a single spawn, then the polling loop. -/
lemma start_server_go (env : Env) (t : Nat)
    (h0 : is_server_running env t = false)
    (hnode : env.nodeInstalled = true)
    (hd2 : (check_dependencies env).2 = true) :
    start_server env t =
      ([probeEff env t, .checkNode true] ++ (check_dependencies env).1
        ++ (check_env_file env).1 ++ [.spawn env.platformWin]
        ++ (waitLoop env (check_env_file env).2 t 10).1,
       (waitLoop env (check_env_file env).2 t 10).2) := by
  simp [start_server, h0, hnode, hd2]

/-- Index (from 0) of the first successful liveness poll in the
10-second window after a start at clock `t`. -/
def firstLive (env : Env) (t : Nat) : Option Nat :=
  (List.range 10).find? (fun i => is_server_running env (t + i + 1))

/-- C2 (amended): when the server is down and the prerequisite checks
succeed, `start()` spawns the server exactly once, then polls once per
second: if poll `i` (at clock `t+i+1`, `i < 10`) is the first success,
the probes happen exactly at `t, t+1, ..., t+i+1`, the run ends with the
success report at clock `t+i+1`; if all 10 polls fail, the probes happen
at `t, t+1, ..., t+10` and the run ends with the failure report at clock
`t+10`.  The spawn is never retried in either case. -/
theorem start_spawns_once_and_polls (env : Env) (t : Nat)
    (h0 : is_server_running env t = false)
    (hnode : env.nodeInstalled = true)
    (hdeps : env.hasNodeModules = true ∨ env.npmInstallOk = true) :
    spawnCount (start_server env t).1 = 1 ∧
    (match firstLive env t with
     | some i =>
        probeTimes (start_server env t).1 =
          t :: (List.range (i + 1)).map (fun j => t + j + 1) ∧
        (start_server env t).1.getLast? =
          some (.reportStartSuccess (check_env_file env).2) ∧
        (start_server env t).2 = t + i + 1
     | none =>
        probeTimes (start_server env t).1 =
          t :: (List.range 10).map (fun j => t + j + 1) ∧
        (start_server env t).1.getLast? = some .reportStartFailure ∧
        (start_server env t).2 = t + 10) := by
  have hd2 : (check_dependencies env).2 = true := deps_ok env hdeps
  have hgo := start_server_go env t h0 hnode hd2
  simp only [hgo]
  constructor
  · rw [spawnCount_append, spawnCount_append, spawnCount_append,
      spawnCount_append, spawnCount_deps, spawnCount_envc,
      waitLoop_spawns_none]
    rfl
  · have hfr := find?_range_first
      (fun i => is_server_running env (t + i + 1)) 10
    simp only [firstLive]
    cases hf : (List.range 10).find?
        (fun i => is_server_running env (t + i + 1)) with
    | some i =>
      rw [hf] at hfr
      obtain ⟨hi, hpi, hmin⟩ := hfr
      obtain ⟨l1, l2, l3⟩ :=
        waitLoop_success env (check_env_file env).2 10 t i hi hpi hmin
      refine ⟨?_, ?_, ?_⟩
      · rw [probeTimes_append, probeTimes_append, probeTimes_append,
          probeTimes_append, probeTimes_deps, probeTimes_envc, l1]
        simp [probeTimes, List.filterMap_cons, effProbeTime, probeEff]
      · rw [List.getLast?_append_of_ne_nil _ (ne_nil_of_getLast?_some l2)]
        exact l2
      · exact l3
    | none =>
      rw [hf] at hfr
      obtain ⟨l1, l2, l3⟩ :=
        waitLoop_timeout env (check_env_file env).2 10 t hfr
      refine ⟨?_, ?_, ?_⟩
      · rw [probeTimes_append, probeTimes_append, probeTimes_append,
          probeTimes_append, probeTimes_deps, probeTimes_envc, l1]
        simp [probeTimes, List.filterMap_cons, effProbeTime, probeEff]
      · rw [List.getLast?_append_of_ne_nil _ (ne_nil_of_getLast?_some l2)]
        exact l2
      · exact l3

/-- Environment where the server is down and Node.js is missing. -/
def envNoNode : Env :=
  { http := fun _ _ _ => .netError, procs := [], nodeInstalled := false,
    hasNodeModules := true, npmInstallOk := true, envFile := some "x",
    termOk := fun _ => true, platformWin := false }

/-- C2 counterexample: in a state where `isRunning()` is false but
Node.js is not installed, `start()` launches nothing and runs no poll:
the trace is the initial probe, the failed runtime check and its report.
This falsifies the claim that `start()` always launches and polls when
the server is down. -/
theorem start_no_spawn_without_node :
    is_server_running envNoNode 0 = false ∧
    spawnCount (start_server envNoNode 0).1 = 0 ∧
    probeTimes (start_server envNoNode 0).1 = [0] ∧
    (start_server envNoNode 0).1 =
      [.httpGet serverUrl 2 0 false, .checkNode false, .reportNodeMissing] :=
  ⟨rfl, rfl, rfl, rfl⟩

/-- Environment where the server is down at first and answers 200 from
clock value 3 onward. -/
def envComesUp : Env :=
  { http := fun _ _ time => if 3 ≤ time then .success 200 "ok" else .netError,
    procs := [], nodeInstalled := true, hasNodeModules := true,
    npmInstallOk := true, envFile := some "x", termOk := fun _ => true,
    platformWin := false }

/-- Concrete instance of the start/poll theorem: the server answers from
clock 3 on, so the third poll succeeds. -/
theorem start_spawns_once_and_polls_w :
    is_server_running envComesUp 0 = false ∧
    envComesUp.nodeInstalled = true ∧
    (spawnCount (start_server envComesUp 0).1 = 1 ∧
     (match firstLive envComesUp 0 with
      | some i =>
         probeTimes (start_server envComesUp 0).1 =
           0 :: (List.range (i + 1)).map (fun j => 0 + j + 1) ∧
         (start_server envComesUp 0).1.getLast? =
           some (.reportStartSuccess (check_env_file envComesUp).2) ∧
         (start_server envComesUp 0).2 = 0 + i + 1
      | none =>
         probeTimes (start_server envComesUp 0).1 =
           0 :: (List.range 10).map (fun j => 0 + j + 1) ∧
         (start_server envComesUp 0).1.getLast? =
           some .reportStartFailure ∧
         (start_server envComesUp 0).2 = 0 + 10)) :=
  ⟨rfl, rfl,
   start_spawns_once_and_polls envComesUp 0 rfl rfl (Or.inl rfl)⟩
